import Mathlib

/-!
Shallow embedding of the ParticleSolver CPU simulation driver
(`src/cpu/src/simulation.cpp`) in Lean 4, together with theorems settling the
frozen claims about it.

Modelling conventions:
* `glm::dvec2` (double pairs) is embedded as a pair of rationals (`Vec2`): the
  properties at issue are exact-arithmetic facts (which constraints are
  appended, ordering of phases, exact zero velocities), not rounding facts.
* `QList` becomes `List`, `QHash<ConstraintGroup, QList<Constraint*>>` becomes
  a record with one list per group (`CMap`); Qt pointer identity becomes value
  identity (constraints are small tagged values holding particle indices).
* Code of this repository that is not under `src/` (particle.h, body.h, the
  constraint classes and the matrix solvers) is modelled from the spec; every
  such definition carries a doc comment starting with `Modelled from the
  spec:`.  In particular the polymorphic `Constraint::project` bodies are
  not in `src/`, so the projection step is a parameter (`proj`) of the
  embedded `tick`, and the batched matrix solver is a parameter (`batch`).
* `exit(1)` after a diagnostic becomes `Except.error msg`.
-/

namespace ParticleSolver

/-- Embedding of `glm::dvec2`: a two-dimensional vector with exact (rational)
coordinates. -/
structure Vec2 where
  x : ℚ
  y : ℚ
deriving DecidableEq, Repr

instance : Add Vec2 := ⟨fun a b => ⟨a.x + b.x, a.y + b.y⟩⟩

instance : Sub Vec2 := ⟨fun a b => ⟨a.x - b.x, a.y - b.y⟩⟩

instance : Neg Vec2 := ⟨fun a => ⟨-a.x, -a.y⟩⟩

instance : SMul ℚ Vec2 := ⟨fun q a => ⟨q * a.x, q * a.y⟩⟩

instance : Zero Vec2 := ⟨⟨0, 0⟩⟩

instance : Inhabited Vec2 := ⟨0⟩

/-- Squared Euclidean distance between two vectors.  The source compares
`glm::distance(a, b) < t`; since distances are non-negative this comparison is
encoded exactly (without square roots) as `0 < t ∧ dist2 a b < t^2`. -/
def dist2 (a b : Vec2) : ℚ :=
  (a.x - b.x) ^ 2 + (a.y - b.y) ^ 2

/-- Particle phase (`Phase` enum from the headers, as used by
`simulation.cpp`): SOLID, FLUID or GAS; granular particles are SOLID with
friction. -/
inductive Phase where
  | SOLID
  | FLUID
  | GAS
deriving DecidableEq, Repr

/-- Constraint group tags of the per-tick constraint map. -/
inductive ConstraintGroup where
  | CONTACT
  | STANDARD
  | SHAPE
  | STABILIZATION
deriving DecidableEq, Repr

/-- Modelled from the spec: the `ConstraintGroup` enum declaration lives in a
header that is not under `src/`.  `simulation.cpp` iterates groups by casting
the loop index (`(ConstraintGroup) j` for `j < NUM_CONSTRAINT_GROUPS`), and
§4.3/§4.4 of the spec fix the resulting visiting order as CONTACT, then
STANDARD, then SHAPE (with STABILIZATION skipped in the main pass), so the
enum order is modelled as CONTACT = 0, STANDARD = 1, SHAPE = 2,
STABILIZATION = 3. -/
def groupOfNat : Nat → ConstraintGroup
  | 0 => .CONTACT
  | 1 => .STANDARD
  | 2 => .SHAPE
  | _ => .STABILIZATION

/-- Per-particle signed-distance-field record (`SDFData`): inward surface
normal and distance to the surface. -/
structure SDFData where
  n : Vec2
  d : ℚ
deriving DecidableEq, Repr

instance : Inhabited SDFData := ⟨⟨0, 0⟩⟩

/-- Tagged union of the constraint family.  The C++ code manipulates
`Constraint *` polymorphically; every claim only needs the constructor tag and
the constructor arguments recorded at the `new ...` sites in
`simulation.cpp`. -/
inductive Constraint where
  | RigidContact (i j : Nat)
  | Contact (i j : Nat)
  | Boundary (i : Nat) (plane : ℚ) (isX isMin stabilizing : Bool)
  | Distance (i j : Nat)
  | TotalShape (bodyIdx : Nat)
  | TotalFluid (density : ℚ) (indices : List Nat)
  | Gas (density : ℚ) (indices : List Nat)
deriving DecidableEq, Repr

instance : Inhabited Constraint := ⟨.Contact 0 0⟩

/-- Map from constraint group to constraint list
(`QHash<ConstraintGroup, QList<Constraint*>>`), with one (possibly empty) list
per group. -/
structure CMap where
  contact : List Constraint
  standard : List Constraint
  shape : List Constraint
  stabilization : List Constraint
deriving DecidableEq, Repr

/-- Look up one group of a constraint map. -/
def CMap.group (m : CMap) : ConstraintGroup → List Constraint
  | .CONTACT => m.contact
  | .STANDARD => m.standard
  | .SHAPE => m.shape
  | .STABILIZATION => m.stabilization

/-- The empty constraint map. -/
def CMap.empty : CMap := ⟨[], [], [], []⟩

/-- Append constraints at the back of one group
(`constraints[g].append(c)`). -/
def CMap.appendTo (m : CMap) (g : ConstraintGroup) (cs : List Constraint) : CMap :=
  match g with
  | .CONTACT => { m with contact := m.contact ++ cs }
  | .STANDARD => { m with standard := m.standard ++ cs }
  | .SHAPE => { m with shape := m.shape ++ cs }
  | .STABILIZATION => { m with stabilization := m.stabilization ++ cs }

/-- Particle state (`Particle` from particle.h): position, predicted
position, velocity, inverse mass, phase, body id, friction coefficients and
contact mass scale. -/
structure Particle where
  p : Vec2
  ep : Vec2
  v : Vec2
  imass : ℚ
  ph : Phase
  bod : Int
  sFriction : ℚ
  kFriction : ℚ
  sm : ℚ
deriving DecidableEq, Repr

instance : Inhabited Particle :=
  ⟨{ p := 0, ep := 0, v := 0, imass := 0, ph := .SOLID, bod := -1,
     sFriction := 0, kFriction := 0, sm := 1 }⟩

/-- Rigid aggregate (`Body` from body.h): particle index list, per-index SDF
data, centre of mass, reference offsets, inverse total mass and the owned
shape constraint. -/
structure Body where
  particles : List Nat
  sdf : List (Nat × SDFData)
  com : Vec2
  rs : List Vec2
  imass : ℚ
  shape : Constraint
deriving DecidableEq, Repr

/-- Scene tags of `Simulation::init` (the `SimulationType` enum). -/
inductive SimulationType where
  | FRICTION_TEST
  | GRANULAR_TEST
  | STACKS_TEST
  | WALL_TEST
  | PENDULUM_TEST
  | FLUID_TEST
  | FLUID_SOLID_TEST
  | GAS_TEST
deriving DecidableEq, Repr

/-- Simulation state: owned particle and body lists, the persistent global
constraint map, the rectangular domain, gravity and the last mouse point. -/
structure SimState where
  particles : List Particle
  bodies : List Body
  globals : CMap
  gravity : Vec2
  xB : ℚ × ℚ
  yB : ℚ × ℚ
  point : Vec2
deriving DecidableEq, Repr

/-- Build-time configuration constants (PARTICLE_DIAM and friends are
process-wide macros in the reference; the `#ifdef USE_STABILIZATION` and
`#ifdef ITERATIVE` switches become boolean fields). -/
structure Config where
  PARTICLE_DIAM : ℚ
  EPSILON : ℚ
  ALPHA : ℚ
  SOLVER_ITERATIONS : Nat
  STABILIZATION_ITERATIONS : Nat
  useStabilization : Bool
  iterative : Bool
  sleepEps : ℚ
deriving DecidableEq, Repr

/-- PARTICLE_RAD is the global constant PARTICLE_DIAM / 2. -/
def Config.PARTICLE_RAD (cfg : Config) : ℚ := cfg.PARTICLE_DIAM / 2

/-- Modelled from the spec: `Particle::guess` is declared in particle.h,
which is not under `src/`.  §4.1 and §4.4 of the spec give
`guess(dt) = p + dt·v` (the predicted position before constraint
projection). -/
def Particle.guess (part : Particle) (dt : ℚ) : Vec2 :=
  part.p + dt • part.v

/-- Modelled from the spec: `Particle::scaleMass` recomputes the contact mass
scale `sm`; the spec leaves the height-dependent scaling policy open (§4.1,
§9), so the policy is a parameter `sFn` reading the particle state after the
velocity and prediction updates. -/
def Particle.scaleMass (sFn : Particle → ℚ) (part : Particle) : Particle :=
  { part with sm := sFn part }

/-- Modelled from the spec: `Particle::confirmGuess` is declared in
particle.h, which is not under `src/`.  §4.1 gives: copy `ep` to `p` unless
sleeping, where the sleep policy zeroes `v` and skips the position update when
`‖ep − p‖ < sleepEps`.  For an immovable particle (`imass = 0`) the spec
invariants (§3 and §8: after every tick `v = 0` and `p` is unchanged) force
the same treatment unconditionally, because `tick` (in `src/`) integrates
gravity into `v` and recovers `v = (ep − p)/dt` with no `imass` test, so the
immovable case must be absorbed here: velocity is zeroed and the position
update is skipped.  The comparison `‖ep − p‖ < sleepEps` is encoded exactly
on squares. -/
def Particle.confirmGuess (cfg : Config) (part : Particle) : Particle :=
  if part.imass = 0 then
    { part with v := 0 }
  else if 0 < cfg.sleepEps ∧ dist2 part.ep part.p < cfg.sleepEps ^ 2 then
    { part with v := 0 }
  else
    { part with p := part.ep }

/-! ## The tick pipeline (`Simulation::tick`, simulation.cpp lines 82-286)

The C++ function is a fixed sequence of loops over shared mutable state; each
loop becomes one definition below and `tick` runs them in source order.  The
virtual `Constraint::project(&m_particles)` calls dispatch into constraint
classes that are not under `src/`, so the projection is an explicit parameter
`proj : Constraint → List Particle → List Particle`; likewise the batched
matrix solver passes (`solveAndUpdate`) are a parameter `batch`.  The
`setupM`/`setupSizes` calls only size private solver scratch buffers and have
no modelled state. -/

/-- Gathering phase (lines 87-103): for every body, check that its attached
constraint is a `TotalShapeConstraint` (else print a diagnostic and
`exit(1)`) and append it to the SHAPE group; then append every persistent
global constraint to its own group.  The QHash key-count iteration of lines
98-103 visits every group, so its net effect is modelled as appending each
global group to the per-tick map. -/
def gatherShapes : List Body → Except String (List Constraint)
  | [] => .ok []
  | b :: rest =>
    match b.shape with
    | .TotalShape k => (gatherShapes rest).map (fun l => .TotalShape k :: l)
    | _ => .error "Rigid body attached constraint was not a shape constraint."

/-- Build the per-tick constraint map from the bodies and the persistent
global constraints (lines 84-103). -/
def gatherConstraints (bodies : List Body) (globals : CMap) : Except String CMap :=
  (gatherShapes bodies).map (fun shapes =>
    ⟨globals.contact, globals.standard, shapes ++ globals.shape, globals.stabilization⟩)

/-- Velocity update of the force phase (lines 110-112): gravity, scaled by
ALPHA for GAS-phase particles, integrated over the step. -/
def applyForces (cfg : Config) (g : Vec2) (dt : ℚ) (part : Particle) : Particle :=
  let myGravity := if part.ph = Phase.GAS then cfg.ALPHA • g else g
  { part with v := part.v + dt • myGravity }

/-- Force-and-prediction phase (lines 106-119): for every particle, apply
gravity to `v`, set `ep` to `guess(dt)`, then apply mass scaling, in that
order. -/
def forcesPhase (cfg : Config) (g : Vec2) (dt : ℚ) (sFn : Particle → ℚ)
    (ps : List Particle) : List Particle :=
  ps.map (fun part =>
    let p1 := applyForces cfg g dt part
    let p2 := { p1 with ep := p1.guess dt }
    p2.scaleMass sFn)

/-- Exact encoding of the collision test of line 143,
`glm::distance(ep_i, ep_j) < PARTICLE_DIAM - EPSILON`: for a non-negative
distance, `dist < t` holds iff `0 < t` and `dist² < t²`. -/
def overlap (cfg : Config) (a b : Vec2) : Prop :=
  0 < cfg.PARTICLE_DIAM - cfg.EPSILON ∧
    dist2 a b < (cfg.PARTICLE_DIAM - cfg.EPSILON) ^ 2

instance (cfg : Config) (a b : Vec2) : Decidable (overlap cfg a b) := by
  unfold overlap; infer_instance

/-- Pair handling of contact discovery (lines 129-157) for the ordered pair
`(i, j)` with `i < j`: skip immovable-immovable pairs and same-body
solid-solid pairs; otherwise, on overlap, append a rigid contact (twice when
stabilization is enabled) for solid-solid pairs and a plain contact when
exactly one side is solid. -/
def pairConstraints (cfg : Config) (pI pJ : Particle) (i j : Nat) :
    List (ConstraintGroup × Constraint) :=
  if pI.imass = 0 ∧ pJ.imass = 0 then
    []
  else if pI.ph = Phase.SOLID ∧ pJ.ph = Phase.SOLID ∧ pI.bod = pJ.bod ∧ pI.bod ≠ -1 then
    []
  else if overlap cfg pI.ep pJ.ep then
    if pI.ph = Phase.SOLID ∧ pJ.ph = Phase.SOLID then
      (ConstraintGroup.CONTACT, Constraint.RigidContact i j) ::
        (if cfg.useStabilization then
          [(ConstraintGroup.STABILIZATION, Constraint.RigidContact i j)]
        else [])
    else if pI.ph = Phase.SOLID ∨ pJ.ph = Phase.SOLID then
      [(ConstraintGroup.CONTACT, Constraint.Contact i j)]
    else []
  else []

/-- Boundary handling of contact discovery (lines 160-182): append a
boundary constraint (with a stabilizing copy when enabled) for every domain
wall the predicted position has crossed, testing min before max on each
axis. -/
def boundaryFor (cfg : Config) (xB yB : ℚ × ℚ) (part : Particle) (i : Nat) :
    List (ConstraintGroup × Constraint) :=
  (if part.ep.x < xB.1 + cfg.PARTICLE_RAD then
    (ConstraintGroup.CONTACT, Constraint.Boundary i xB.1 true true false) ::
      (if cfg.useStabilization then
        [(ConstraintGroup.STABILIZATION, Constraint.Boundary i xB.1 true true true)]
      else [])
  else if part.ep.x > xB.2 - cfg.PARTICLE_RAD then
    (ConstraintGroup.CONTACT, Constraint.Boundary i xB.2 true false false) ::
      (if cfg.useStabilization then
        [(ConstraintGroup.STABILIZATION, Constraint.Boundary i xB.2 true false true)]
      else [])
  else []) ++
  (if part.ep.y < yB.1 + cfg.PARTICLE_RAD then
    (ConstraintGroup.CONTACT, Constraint.Boundary i yB.1 false true false) ::
      (if cfg.useStabilization then
        [(ConstraintGroup.STABILIZATION, Constraint.Boundary i yB.1 false true true)]
      else [])
  else if part.ep.y > yB.2 - cfg.PARTICLE_RAD then
    (ConstraintGroup.CONTACT, Constraint.Boundary i yB.2 false false false) ::
      (if cfg.useStabilization then
        [(ConstraintGroup.STABILIZATION, Constraint.Boundary i yB.2 false false true)]
      else [])
  else [])

/-- Contact discovery (lines 124-183): the naive O(N²) double loop over
unordered pairs followed by the per-particle boundary tests, producing the
group-tagged constraints in append order. -/
def discoverContacts (cfg : Config) (xB yB : ℚ × ℚ) (ps : List Particle) :
    List (ConstraintGroup × Constraint) :=
  (List.range ps.length).flatMap (fun i =>
    ((List.range' (i + 1) (ps.length - (i + 1))).flatMap (fun j =>
      pairConstraints cfg (ps.getD i default) (ps.getD j default) i j)) ++
    boundaryFor cfg xB yB (ps.getD i default) i)

/-- Append the discovered group-tagged constraints to the per-tick map, in
discovery order. -/
def addDiscovered (base : CMap) (disc : List (ConstraintGroup × Constraint)) : CMap :=
  disc.foldl (fun m gc => m.appendTo gc.1 [gc.2]) base

/-- The per-tick constraint map after gathering and contact discovery
(everything `tick` knows about constraints before solving). -/
def tickCMap (cfg : Config) (sFn : Particle → ℚ) (dt : ℚ) (s : SimState) :
    Except String CMap :=
  (gatherConstraints s.bodies s.globals).map (fun base =>
    addDiscovered base
      (discoverContacts cfg s.xB s.yB (forcesPhase cfg s.gravity dt sFn s.particles)))

/-- Gauss-Seidel walk over one constraint list (lines 195-197 and 227-229):
each `project` call reads the predicted positions written by the previous
ones. -/
def projectList (proj : Constraint → List Particle → List Particle)
    (cs : List Constraint) (ps : List Particle) : List Particle :=
  cs.foldl (fun acc c => proj c acc) ps

/-- Stabilization pass (lines 188-210): when enabled, repeat
STABILIZATION_ITERATIONS times; in iterative mode project every STABILIZATION
constraint, in batched mode run the contact matrix solver unless the group is
empty (in which case the C++ `break` makes the remaining iterations no-ops,
modelled by the same early test in each iteration). -/
def stabilizationPass (cfg : Config)
    (proj : Constraint → List Particle → List Particle)
    (batch : List Constraint → List Particle → List Particle)
    (stab : List Constraint) (ps : List Particle) : List Particle :=
  if cfg.useStabilization then
    (List.range cfg.STABILIZATION_ITERATIONS).foldl (fun acc _ =>
      if cfg.iterative then projectList proj stab acc
      else if 0 < stab.length then batch stab acc
      else acc) ps
  else ps

/-- Main solver pass (lines 212-258): SOLVER_ITERATIONS outer iterations; in
iterative mode walk the groups by enum index skipping STABILIZATION and
project each group in list order; in batched mode run the contact solver on
CONTACT, the standard solver on STANDARD, then project SHAPE in list
order. -/
def solverPass (cfg : Config)
    (proj : Constraint → List Particle → List Particle)
    (batch : List Constraint → List Particle → List Particle)
    (cmap : CMap) (ps : List Particle) : List Particle :=
  if cfg.iterative then
    (List.range cfg.SOLVER_ITERATIONS).foldl (fun acc _ =>
      (List.range 4).foldl (fun acc j =>
        let g := groupOfNat j
        if g = ConstraintGroup.STABILIZATION then acc
        else projectList proj (cmap.group g) acc) acc) ps
  else
    (List.range cfg.SOLVER_ITERATIONS).foldl (fun acc _ =>
      let acc1 := if 0 < cmap.contact.length then batch cmap.contact acc else acc
      let acc2 := if 0 < cmap.standard.length then batch cmap.standard acc1 else acc1
      if 0 < cmap.shape.length then projectList proj cmap.shape acc2 else acc2) ps

/-- Velocity recovery (lines 261-273): for every particle set
`v ← (ep − p)/dt`, then call `confirmGuess()`. -/
def velocityRecovery (cfg : Config) (dt : ℚ) (ps : List Particle) : List Particle :=
  ps.map (fun part =>
    Particle.confirmGuess cfg { part with v := (1 / dt) • (part.ep - part.p) })

/-- Repeatedly remove the last element of a list, returning the emptied list
together with the removed elements in removal order (the reverse-index
deletion loops of lines 276-285). -/
def drainBack : Nat → List Constraint → List Constraint × List Constraint
  | 0, l => (l, [])
  | n + 1, l =>
    let c := l.getLastD default
    let r := drainBack n l.dropLast
    (r.1, c :: r.2)

/-- Teardown (lines 276-285): remove and destroy every CONTACT constraint,
then every STABILIZATION constraint, of the per-tick map, from the back;
returns the final map together with the destroyed constraints in destruction
order. -/
def teardown (m : CMap) : CMap × List Constraint :=
  let dc := drainBack m.contact.length m.contact
  let ds := drainBack m.stabilization.length m.stabilization
  ({ m with contact := dc.1, stabilization := ds.1 }, dc.2 ++ ds.2)

/-- One simulation step (`Simulation::tick`): gather constraints (failing
fatally on a bad shape slot), integrate forces and predict positions, discover
contacts, run the optional stabilization pass, run the main solver pass,
recover velocities and confirm positions.  The teardown of the per-tick map
frees ephemeral constraints and is observable through `teardown` applied to
`tickCMap`; the map itself is local to the tick, so the returned state carries
the particle list with bodies and persistent constraints untouched. -/
def tick (cfg : Config)
    (proj : Constraint → List Particle → List Particle)
    (batch : List Constraint → List Particle → List Particle)
    (sFn : Particle → ℚ) (dt : ℚ) (s : SimState) : Except String SimState :=
  (tickCMap cfg sFn dt s).map (fun cmap =>
    let ps1 := forcesPhase cfg s.gravity dt sFn s.particles
    let ps2 := stabilizationPass cfg proj batch cmap.stabilization ps1
    let ps3 := solverPass cfg proj batch cmap ps2
    let ps4 := velocityRecovery cfg dt ps3
    { s with particles := ps4 })

/-! ## Rigid body construction (`Simulation::createRigidBody`, lines 288-323) -/

/-- Modelled from the spec: `Body::updateCOM(&m_particles, false)` is declared
in body.h, which is not under `src/`.  §3 and §4.5 fix the centre of mass as
the mass-weighted mean of the member particle positions, with the body inverse
mass `imass = 1/Σ(1/p.imass)` as the normalizer. -/
def bodyCOM (ps : List Particle) (b : Body) : Vec2 :=
  b.imass • (b.particles.foldl (fun acc idx =>
    acc + (1 / (ps.getD idx default).imass) • (ps.getD idx default).p) 0)

/-- Modelled from the spec: `Body::computeRs(&m_particles)` is declared in
body.h, which is not under `src/`.  §3 fixes the reference offsets as the
initial-frame positions relative to the centre of mass, `r_i = p_i − com`. -/
def computeRs (ps : List Particle) (b : Body) : List Vec2 :=
  b.particles.map (fun idx => (ps.getD idx default).p - b.com)

/-- Vertex-processing loop of `createRigidBody` (lines 298-313): set each
vertex's body id and SOLID phase, fail fast on an infinite-mass vertex
(diagnostic plus `exit(1)`), and accumulate the total mass `Σ 1/imass`. -/
def addBodyVerts (bodyIdx : Int) : List Particle → Except String (List Particle × ℚ)
  | [] => .ok ([], 0)
  | v :: rest =>
    let v1 := { v with bod := bodyIdx, ph := Phase.SOLID }
    if v1.imass = 0 then
      .error "A rigid body cannot have a point of infinite mass."
    else
      (addBodyVerts bodyIdx rest).map (fun r => (v1 :: r.1, 1 / v1.imass + r.2))

/-- Embedding of `Simulation::createRigidBody` (lines 288-323): fail fast on
fewer than two vertices, process the vertices (failing on infinite mass),
append them to the simulation, build the body record with inverse total mass,
centre of mass, reference offsets and a fresh `TotalShapeConstraint`, append
the body and return it. -/
def createRigidBody (verts : List Particle) (sdfData : List SDFData) (s : SimState) :
    Except String (SimState × Body) :=
  if verts.length ≤ 1 then
    .error "Rigid bodies must be at least 2 points."
  else
    (addBodyVerts (Int.ofNat s.bodies.length) verts).map (fun r =>
      let offset := s.particles.length
      let newParticles := s.particles ++ r.1
      let b0 : Body :=
        { particles := (List.range verts.length).map (fun i => i + offset)
          sdf := (List.range verts.length).map (fun i => (i + offset, sdfData.getD i default))
          com := 0
          rs := []
          imass := 1 / r.2
          shape := Constraint.TotalShape s.bodies.length }
      let b1 := { b0 with com := bodyCOM newParticles b0 }
      let body := { b1 with rs := computeRs newParticles b1 }
      ({ s with particles := newParticles, bodies := s.bodies ++ [body] }, body))

/-! ## Mouse impulse (`Simulation::mousePressed`, lines 796-805) -/

/-- Exact square root on naturals by bounded search (kept structurally
recursive so that concrete instances evaluate inside the kernel):
`natSqrtExact n = some k` when `k * k = n`, and `none` otherwise. -/
def natSqrtExact (n : Nat) : Option Nat :=
  (List.range (n + 1)).find? (fun k => k * k == n)

/-- Exact square root on rationals: `ratSqrt q = some r` when `q` has an exact
non-negative rational square root `r`, and `none` otherwise. -/
def ratSqrt (q : ℚ) : Option ℚ :=
  if q < 0 then none
  else
    match natSqrtExact q.num.toNat, natSqrtExact q.den with
    | some n, some d => some ((n : ℚ) / (d : ℚ))
    | _, _ => none

/-- Exact-arithmetic embedding of `glm::normalize`: the unit vector in the
direction of `u` when its length is a nonzero rational, and `none` otherwise
(`glm::normalize` of the zero vector is undefined, and an irrational length is
not representable; the claims about `mousePressed` are settled at inputs with
rational lengths). -/
def normalizeQ (u : Vec2) : Option Vec2 :=
  match ratSqrt (dist2 u 0) with
  | some n => if n = 0 then none else some ((1 / n) • u)
  | none => none

/-- Embedding of `Simulation::mousePressed(p)` (lines 796-805): every particle
receives the velocity increment `7 · normalize(p − part.p)`, and the point is
recorded for drawing. -/
def mousePressed (pt : Vec2) (s : SimState) : SimState :=
  { s with
    particles := s.particles.map (fun part =>
      match normalizeQ (pt - part.p) with
      | some u => { part with v := part.v + (7 : ℚ) • u }
      | none => part)
    point := pt }

/-! ## Reset (`Simulation::clear` and `Simulation::init`, lines 22-79) -/

/-- The reverse-index removal loop of `clear` (lines 23-27 and 28-32): remove
the element at index `size - 1` repeatedly. -/
def clearLoop {α : Type} : Nat → List α → List α
  | 0, l => l
  | n + 1, l => clearLoop n l.dropLast

/-- Remove every occurrence of a constraint from every group
(`m_globalConstraints[k].removeAll(c)` over all groups, lines 38-42). -/
def removeAllC (c : Constraint) (m : CMap) : CMap :=
  ⟨m.contact.filter (· ≠ c), m.standard.filter (· ≠ c),
   m.shape.filter (· ≠ c), m.stabilization.filter (· ≠ c)⟩

/-- Constraint-deletion part of `clear` (lines 33-46): for each group in enum
order, snapshot the group list and, walking the snapshot from the back, remove
each of its constraints from every group (so shared constraints are deleted
once). -/
def clearConstraints (m : CMap) : CMap :=
  (List.range 4).foldl (fun acc i =>
    let snapshot := (acc.group (groupOfNat i)).reverse
    snapshot.foldl (fun acc2 c => removeAllC c acc2) acc) m

/-- Embedding of `Simulation::clear` (lines 22-47): delete every particle,
every body and every global persistent constraint. -/
def clear (s : SimState) : SimState :=
  { s with
    particles := clearLoop s.particles.length s.particles
    bodies := clearLoop s.bodies.length s.bodies
    globals := clearConstraints s.globals }

/-- Embedding of `Simulation::init` (lines 49-79): clear the previous scene,
reset gravity to (0, −9.8), then dispatch to the scene builder for the
requested tag.  The concrete builders (`initFriction`, `initBoxes`, ...) call
`frand()` and build demo geometry, so the dispatch target is a parameter
`build`; the trailing `m_standardSolver.setupM` only captures solver scratch
state and is not modelled. -/
def init (ty : SimulationType) (build : SimulationType → SimState → SimState)
    (s : SimState) : SimState :=
  let s1 := clear s
  let s2 := { s1 with gravity := ⟨0, -(49 : ℚ) / 5⟩ }
  build ty s2

/-! ## Predicates and concrete instances used by the theorems below -/

instance {ε α : Type} [DecidableEq ε] [DecidableEq α] : DecidableEq (Except ε α) := fun a b =>
  match a, b with
  | .ok x, .ok y =>
    if h : x = y then isTrue (by rw [h])
    else isFalse (by intro hc; injection hc with h2; exact h h2)
  | .error x, .error y =>
    if h : x = y then isTrue (by rw [h])
    else isFalse (by intro hc; injection hc with h2; exact h h2)
  | .ok _, .error _ => isFalse (by intro hc; cases hc)
  | .error _, .ok _ => isFalse (by intro hc; cases hc)

/-- Whether a constraint value is a `TotalShapeConstraint` (the test performed
by the `dynamic_cast` of tick line 89). -/
def Constraint.isShapeC : Constraint → Bool
  | .TotalShape _ => true
  | _ => false

/-- The projection contract of §4.2 of the spec for immovable particles: a
particle with `imass = 0` receives no displacement from a constraint
projection (and projections do not add or remove particles). -/
def PreservesImmovable (f : List Particle → List Particle) : Prop :=
  ∀ ps : List Particle,
    (f ps).length = ps.length ∧
    ∀ i, i < ps.length → (ps.getD i default).imass = 0 →
      (f ps).getD i default = ps.getD i default

/-- A configuration with iterative solving and stabilization enabled, used to
instantiate theorems at concrete inputs. -/
def cfg0 : Config :=
  { PARTICLE_DIAM := 1, EPSILON := 1 / 1000000, ALPHA := 1 / 10,
    SOLVER_ITERATIONS := 2, STABILIZATION_ITERATIONS := 2,
    useStabilization := true, iterative := true, sleepEps := 1 / 100 }

/-- An immovable particle at the origin. -/
def imm : Particle :=
  { p := 0, ep := 0, v := 0, imass := 0, ph := .SOLID, bod := -1,
    sFriction := 0, kFriction := 0, sm := 1 }

/-- A unit-mass solid particle at the origin. -/
def solidA : Particle := { imm with imass := 1 }

/-- A unit-mass solid particle overlapping `solidA`. -/
def solidB : Particle := { solidA with p := ⟨1/2, 0⟩, ep := ⟨1/2, 0⟩ }

/-- A one-particle scene holding only the immovable particle. -/
def sImm : SimState :=
  { particles := [imm], bodies := [], globals := CMap.empty,
    gravity := ⟨0, -(49 : ℚ) / 5⟩, xB := (-100, 100), yB := (-100, 100), point := 0 }

/-- The immovable-particle scene after one tick with identity projections at
dt = 1/60 (the prediction moved `ep`, but the position is unchanged and the
velocity is zero). -/
def sImmTick : SimState :=
  { sImm with particles := [{ imm with ep := ⟨0, -(49 : ℚ) / 18000⟩ }] }

/-- A two-particle scene with two overlapping unit-mass solids. -/
def sPair : SimState := { sImm with particles := [solidA, solidB] }

/-- The per-tick constraint map discovered for `sPair` at dt = 1/60: one
rigid contact in CONTACT and one in STABILIZATION. -/
def cmapPair : CMap :=
  { contact := [.RigidContact 0 1], standard := [], shape := [],
    stabilization := [.RigidContact 0 1] }

/-- The two-solid scene after one tick with identity projections at
dt = 1/60 (both particles fall below the sleep threshold and sleep). -/
def sPairTick : SimState :=
  { sPair with particles :=
    [{ solidA with ep := ⟨0, -(49 : ℚ) / 18000⟩ },
     { solidB with ep := ⟨1/2, -(49 : ℚ) / 18000⟩ }] }

/-- A one-particle scene with a unit-mass particle at (1, 0), used for the
mouse-impulse claim. -/
def sMouse : SimState :=
  { sImm with particles := [{ solidA with p := ⟨1, 0⟩, ep := ⟨1, 0⟩ }] }

/-- A projection that bumps the mass scale of every particle, used to
instantiate the solver-ordering theorem at an input where projection order is
observable. -/
def projBump : Constraint → List Particle → List Particle :=
  fun _ ps => ps.map (fun part => { part with sm := part.sm + 1 })

/-- A small constraint map exercising every group, used to instantiate the
solver-ordering theorem. -/
def cmapW : CMap :=
  { contact := [.Contact 0 1, .RigidContact 0 1], standard := [.Distance 0 1],
    shape := [.TotalShape 0], stabilization := [.Contact 0 1] }

/-! ## Helper lemmas -/

theorem getD_map {α β : Type} (l : List α) (f : α → β) (i : Nat) (h : i < l.length)
    (d : α) (d2 : β) : (l.map f).getD i d2 = f (l.getD i d) := by
  induction l generalizing i with
  | nil => simp at h
  | cons a t ih =>
    cases i with
    | zero => rfl
    | succ n => simpa using ih n (by simpa using h)

theorem foldl_range_const {α : Type} (f : α → α) (n : Nat) (x : α) :
    (List.range n).foldl (fun acc _ => f acc) x = f^[n] x := by
  induction n generalizing x with
  | zero => rfl
  | succ m ih =>
    rw [List.range_succ, List.foldl_append, ih, List.foldl_cons, List.foldl_nil,
      Function.iterate_succ_apply']

theorem appendTo_group (m : CMap) (g g2 : ConstraintGroup) (cs : List Constraint) :
    (m.appendTo g cs).group g2 = m.group g2 ++ (if g2 = g then cs else []) := by
  cases g <;> cases g2 <;> simp [CMap.appendTo, CMap.group]

theorem addDiscovered_group (disc : List (ConstraintGroup × Constraint)) (base : CMap)
    (g : ConstraintGroup) :
    (addDiscovered base disc).group g =
      base.group g ++ (disc.filter (fun gc => gc.1 = g)).map (fun gc => gc.2) := by
  induction disc generalizing base with
  | nil => simp [addDiscovered]
  | cons hd tl ih =>
    simp only [addDiscovered, List.foldl_cons] at ih ⊢
    rw [ih, appendTo_group, List.filter_cons]
    by_cases h : hd.1 = g
    · simp [h, List.append_assoc]
    · have h2 : ¬(g = hd.1) := fun hh => h hh.symm
      simp [h, h2]

theorem gatherShapes_eq (bodies : List Body) :
    gatherShapes bodies =
      if bodies.all (fun b => b.shape.isShapeC) then .ok (bodies.map (fun b => b.shape))
      else .error "Rigid body attached constraint was not a shape constraint." := by
  induction bodies with
  | nil => rfl
  | cons b rest ih =>
    simp only [gatherShapes, ih, List.all_cons, List.map_cons]
    cases hr : rest.all (fun b => b.shape.isShapeC) with
    | false => cases hb : b.shape <;> simp [Constraint.isShapeC, Except.map]
    | true => cases hb : b.shape <;> simp [Constraint.isShapeC, Except.map]

theorem drainBack_eq (l : List Constraint) : drainBack l.length l = ([], l.reverse) := by
  induction l using List.reverseRecOn with
  | nil => rfl
  | append_singleton xs x ih =>
    have hlen : (xs ++ [x]).length = xs.length + 1 := by simp
    rw [hlen]
    simp only [drainBack, List.dropLast_concat, ih]
    simp [List.getLastD_eq_getLast?, List.getLast?_concat]

theorem teardown_eq (m : CMap) :
    teardown m = ({ m with contact := [], stabilization := [] },
      m.contact.reverse ++ m.stabilization.reverse) := by
  simp [teardown, drainBack_eq]

theorem clearLoop_eq {α : Type} : ∀ (n : Nat) (l : List α), l.length = n → clearLoop n l = []
  | 0, l, h => by
    rw [List.length_eq_zero] at h
    simpa [clearLoop] using h
  | n + 1, l, h => by
    simp only [clearLoop]
    exact clearLoop_eq n l.dropLast (by rw [List.length_dropLast, h]; rfl)

theorem mem_removeAllC (x c : Constraint) (m : CMap) (g : ConstraintGroup) :
    x ∈ (removeAllC c m).group g ↔ x ∈ m.group g ∧ x ≠ c := by
  cases g <;> simp [removeAllC, CMap.group, List.mem_filter]

theorem mem_sweep (s : List Constraint) (m : CMap) (g : ConstraintGroup) (x : Constraint) :
    x ∈ (s.foldl (fun acc c => removeAllC c acc) m).group g ↔ x ∈ m.group g ∧ x ∉ s := by
  induction s generalizing m with
  | nil => simp
  | cons c t ih =>
    simp only [List.foldl_cons, ih, mem_removeAllC, List.mem_cons]
    tauto

theorem clearStep_not_mem (m : CMap) (i : Nat) (x : Constraint) :
    x ∉ (((m.group (groupOfNat i)).reverse).foldl
      (fun acc c => removeAllC c acc) m).group (groupOfNat i) := by
  intro hx
  rw [mem_sweep] at hx
  exact hx.2 (by simpa using hx.1)

theorem clearStep_subset (m : CMap) (i : Nat) (g : ConstraintGroup) (x : Constraint)
    (h : x ∈ (((m.group (groupOfNat i)).reverse).foldl
      (fun acc c => removeAllC c acc) m).group g) : x ∈ m.group g :=
  ((mem_sweep _ m g x).1 h).1

theorem clearConstraints_eq (m : CMap) : clearConstraints m = CMap.empty := by
  have hcc : clearConstraints m =
      (fun acc i => ((CMap.group acc (groupOfNat i)).reverse).foldl
        (fun acc2 c => removeAllC c acc2) acc)
      ((fun acc i => ((CMap.group acc (groupOfNat i)).reverse).foldl
        (fun acc2 c => removeAllC c acc2) acc)
      ((fun acc i => ((CMap.group acc (groupOfNat i)).reverse).foldl
        (fun acc2 c => removeAllC c acc2) acc)
      ((fun acc i => ((CMap.group acc (groupOfNat i)).reverse).foldl
        (fun acc2 c => removeAllC c acc2) acc) m 0) 1) 2) 3 := rfl
  have hnil : ∀ g : ConstraintGroup, ∀ x : Constraint, x ∉ (clearConstraints m).group g := by
    intro g x hx
    rw [hcc] at hx
    cases g with
    | STABILIZATION => exact clearStep_not_mem _ 3 x hx
    | SHAPE => exact clearStep_not_mem _ 2 x (clearStep_subset _ 3 _ x hx)
    | STANDARD =>
      exact clearStep_not_mem _ 1 x (clearStep_subset _ 2 _ x (clearStep_subset _ 3 _ x hx))
    | CONTACT =>
      exact clearStep_not_mem _ 0 x
        (clearStep_subset _ 1 _ x (clearStep_subset _ 2 _ x (clearStep_subset _ 3 _ x hx)))
  rcases hm : clearConstraints m with ⟨a, b, c, d⟩
  have ha : a = [] := List.eq_nil_iff_forall_not_mem.2 (fun x =>
    by have := hnil ConstraintGroup.CONTACT x; rw [hm] at this; exact this)
  have hb : b = [] := List.eq_nil_iff_forall_not_mem.2 (fun x =>
    by have := hnil ConstraintGroup.STANDARD x; rw [hm] at this; exact this)
  have hc : c = [] := List.eq_nil_iff_forall_not_mem.2 (fun x =>
    by have := hnil ConstraintGroup.SHAPE x; rw [hm] at this; exact this)
  have hd : d = [] := List.eq_nil_iff_forall_not_mem.2 (fun x =>
    by have := hnil ConstraintGroup.STABILIZATION x; rw [hm] at this; exact this)
  rw [ha, hb, hc, hd]
  rfl

theorem clear_eq (s : SimState) :
    clear s = { s with particles := [], bodies := [], globals := CMap.empty } := by
  simp [clear, clearLoop_eq _ _ rfl, clearConstraints_eq]

theorem preservesImmovable_id : PreservesImmovable (fun ps => ps) :=
  fun _ => ⟨rfl, fun _ _ _ => rfl⟩

theorem preservesImmovable_comp {f g : List Particle → List Particle}
    (hf : PreservesImmovable f) (hg : PreservesImmovable g) :
    PreservesImmovable (fun ps => g (f ps)) := by
  intro ps
  obtain ⟨hfl, hfi⟩ := hf ps
  obtain ⟨hgl, hgi⟩ := hg (f ps)
  refine ⟨by rw [hgl, hfl], fun i hi h0 => ?_⟩
  rw [hgi i (by rw [hfl]; exact hi) (by rw [hfi i hi h0]; exact h0), hfi i hi h0]

theorem preservesImmovable_foldl {β : Type} (step : List Particle → β → List Particle)
    (l : List β) (h : ∀ b, PreservesImmovable (fun ps => step ps b)) :
    PreservesImmovable (fun ps => l.foldl step ps) := by
  induction l with
  | nil => exact fun _ => ⟨rfl, fun _ _ _ => rfl⟩
  | cons b t ih =>
    have hcomp := preservesImmovable_comp (h b) ih
    simpa [List.foldl_cons] using hcomp

theorem preservesImmovable_projectList (proj : Constraint → List Particle → List Particle)
    (cs : List Constraint) (hp : ∀ c, PreservesImmovable (proj c)) :
    PreservesImmovable (fun ps => projectList proj cs ps) :=
  preservesImmovable_foldl (fun acc c => proj c acc) cs hp

theorem preservesImmovable_stab (cfg : Config)
    (proj : Constraint → List Particle → List Particle)
    (batch : List Constraint → List Particle → List Particle)
    (stab : List Constraint)
    (hp : ∀ c, PreservesImmovable (proj c))
    (hb : ∀ cs, PreservesImmovable (batch cs)) :
    PreservesImmovable (fun ps => stabilizationPass cfg proj batch stab ps) := by
  unfold stabilizationPass
  by_cases hu : cfg.useStabilization = true
  · simp only [hu, if_true]
    apply preservesImmovable_foldl
    intro _
    by_cases hi : cfg.iterative = true
    · simpa [hi] using preservesImmovable_projectList proj stab hp
    · by_cases hs : 0 < stab.length
      · simpa [hi, hs] using hb stab
      · simpa [hi, hs] using preservesImmovable_id
  · simp only [Bool.not_eq_true] at hu
    simpa [hu] using preservesImmovable_id

theorem preservesImmovable_solver (cfg : Config)
    (proj : Constraint → List Particle → List Particle)
    (batch : List Constraint → List Particle → List Particle)
    (cmap : CMap)
    (hp : ∀ c, PreservesImmovable (proj c))
    (hb : ∀ cs, PreservesImmovable (batch cs)) :
    PreservesImmovable (fun ps => solverPass cfg proj batch cmap ps) := by
  unfold solverPass
  by_cases hi : cfg.iterative = true
  · simp only [hi, if_true]
    apply preservesImmovable_foldl
    intro _
    apply preservesImmovable_foldl
    intro j
    by_cases hg : groupOfNat j = ConstraintGroup.STABILIZATION
    · simpa [hg] using preservesImmovable_id
    · simpa [hg] using preservesImmovable_projectList proj (cmap.group (groupOfNat j)) hp
  · simp only [hi, if_false]
    apply preservesImmovable_foldl
    intro _
    have h1 : PreservesImmovable (fun ps =>
        if 0 < cmap.contact.length then batch cmap.contact ps else ps) := by
      by_cases hc : 0 < cmap.contact.length
      · simpa [hc] using hb cmap.contact
      · simpa [hc] using preservesImmovable_id
    have h2 : PreservesImmovable (fun ps =>
        if 0 < cmap.standard.length then batch cmap.standard ps else ps) := by
      by_cases hc : 0 < cmap.standard.length
      · simpa [hc] using hb cmap.standard
      · simpa [hc] using preservesImmovable_id
    have h3 : PreservesImmovable (fun ps =>
        if 0 < cmap.shape.length then projectList proj cmap.shape ps else ps) := by
      by_cases hc : 0 < cmap.shape.length
      · simpa [hc] using preservesImmovable_projectList proj cmap.shape hp
      · simpa [hc] using preservesImmovable_id
    exact preservesImmovable_comp (preservesImmovable_comp h1 h2) h3

theorem addBodyVerts_eq (bodyIdx : Int) (verts : List Particle) :
    addBodyVerts bodyIdx verts =
      if verts.any (fun v => v.imass == 0) then
        .error "A rigid body cannot have a point of infinite mass."
      else
        .ok (verts.map (fun v => { v with bod := bodyIdx, ph := Phase.SOLID }),
          (verts.map (fun v => 1 / v.imass)).sum) := by
  induction verts with
  | nil => rfl
  | cons v t ih =>
    by_cases h0 : v.imass = 0
    · simp [addBodyVerts, h0]
    · cases ha : t.any (fun v => v.imass == 0) with
      | true => simp [addBodyVerts, h0, ih, ha, Except.map]
      | false => simp [addBodyVerts, h0, ih, ha, Except.map]

/-! ## The claims -/

/-- C10: for every scene tag, `init(type)` first deletes all existing
particles, bodies and global persistent constraints (via `clear`) and resets
gravity to (0, −9.8) before building the requested scene, so nothing created
by a previous `init` survives into the newly initialized simulation; scene
builders receive the reset state and may subsequently override gravity. -/
theorem claim10_init_resets (ty : SimulationType)
    (build : SimulationType → SimState → SimState) (s : SimState) :
    init ty build s = build ty
      { particles := [], bodies := [], globals := CMap.empty,
        gravity := ⟨0, -(49 : ℚ) / 5⟩, xB := s.xB, yB := s.yB, point := s.point } := by
  cases s
  simp [init, clear_eq]

/-- C8: at the start of every tick each body's attached shape-constraint slot
is checked; if some slot does not hold a `TotalShapeConstraint` the gathering
phase fails fatally with the diagnostic, and otherwise every body's shape
constraint is appended (in body order, before the persistent globals) to the
SHAPE group of the per-tick constraint map; the `if`-characterization shows no
other outcome is possible. -/
theorem claim8_shape_gather (bodies : List Body) (globals : CMap) :
    gatherConstraints bodies globals =
      if bodies.all (fun b => b.shape.isShapeC) then
        Except.ok ⟨globals.contact, globals.standard,
          bodies.map (fun b => b.shape) ++ globals.shape, globals.stabilization⟩
      else Except.error "Rigid body attached constraint was not a shape constraint." := by
  unfold gatherConstraints
  rw [gatherShapes_eq]
  cases h : bodies.all (fun b => b.shape.isShapeC) <;> simp [Except.map]

/-- C7: `createRigidBody(verts, sdfData)` fails fast with a diagnostic if and
only if `verts` has fewer than 2 particles or some particle in `verts` has
`imass = 0`; on success it appends every particle with phase SOLID and `bod`
set to the new body's index, sets the body's inverse mass to `1/Σ(1/imass)`,
computes the initial centre of mass and reference offsets, attaches a fresh
`TotalShapeConstraint`, and returns the body (appended as the last body). -/
theorem claim7_createRigidBody (verts : List Particle) (sdfData : List SDFData)
    (s : SimState) :
    createRigidBody verts sdfData s =
      if verts.length ≤ 1 then Except.error "Rigid bodies must be at least 2 points."
      else if verts.any (fun v => v.imass == 0) then
        Except.error "A rigid body cannot have a point of infinite mass."
      else
        let processed := verts.map (fun v =>
          { v with bod := Int.ofNat s.bodies.length, ph := Phase.SOLID })
        let newParticles := s.particles ++ processed
        let b0 : Body :=
          { particles := (List.range verts.length).map (fun i => i + s.particles.length)
            sdf := (List.range verts.length).map
              (fun i => (i + s.particles.length, sdfData.getD i default))
            com := 0
            rs := []
            imass := 1 / (verts.map (fun v => 1 / v.imass)).sum
            shape := Constraint.TotalShape s.bodies.length }
        let b1 := { b0 with com := bodyCOM newParticles b0 }
        let body := { b1 with rs := computeRs newParticles b1 }
        Except.ok ({ s with particles := newParticles, bodies := s.bodies ++ [body] }, body) := by
  unfold createRigidBody
  by_cases h1 : verts.length ≤ 1
  · simp [h1]
  · simp only [h1, if_false]
    rw [addBodyVerts_eq]
    cases ha : verts.any (fun v => v.imass == 0) with
    | true => simp [Except.map]
    | false => simp [Except.map]

/-- C4: in the force-and-prediction phase of `tick(dt)` every particle's
velocity is first updated to `v + dt·g_eff`, where `g_eff` is gravity scaled
by ALPHA exactly when the phase is GAS and gravity otherwise; then `ep` is set
to `guess(dt) = p + dt·v` (with the updated `v`), and then `scaleMass()` is
applied to the updated particle — in that order for each particle; the second
conjunct records that the whole phase runs before contact discovery reads the
predicted positions. -/
theorem claim4_forces_phase (cfg : Config) (g : Vec2) (dt : ℚ) (sFn : Particle → ℚ)
    (ps : List Particle) :
    (forcesPhase cfg g dt sFn ps = ps.map (fun part =>
      let geff := if part.ph = Phase.GAS then cfg.ALPHA • g else g
      let v1 := part.v + dt • geff
      let ep1 := part.p + dt • v1
      { part with
        v := v1
        ep := ep1
        sm := sFn { part with v := v1, ep := ep1 } })) ∧
    ∀ s : SimState, tickCMap cfg sFn dt s = (gatherConstraints s.bodies s.globals).map
      (fun base => addDiscovered base (discoverContacts cfg s.xB s.yB
        (forcesPhase cfg s.gravity dt sFn s.particles))) := by
  exact ⟨rfl, fun _ => rfl⟩

/-- C5: in iterative mode the main solver pass performs exactly
SOLVER_ITERATIONS outer iterations, and each outer iteration projects every
constraint of every group except STABILIZATION, visiting CONTACT, then
STANDARD, then SHAPE, and walking each group in list order on the in-place
particle list (`projectList` is a left fold, so each projection reads the
positions written by the previous ones). -/
theorem claim5_solver_order (cfg : Config)
    (proj : Constraint → List Particle → List Particle)
    (batch : List Constraint → List Particle → List Particle)
    (cmap : CMap) (ps : List Particle)
    (hit : cfg.iterative = true) :
    solverPass cfg proj batch cmap ps =
      (fun l => projectList proj
        (cmap.group ConstraintGroup.CONTACT ++ cmap.group ConstraintGroup.STANDARD ++
          cmap.group ConstraintGroup.SHAPE) l)^[cfg.SOLVER_ITERATIONS] ps := by
  unfold solverPass
  simp only [hit, if_true]
  rw [foldl_range_const]
  have hfun : (fun acc : List Particle => (List.range 4).foldl (fun acc2 j =>
      let g := groupOfNat j
      if g = ConstraintGroup.STABILIZATION then acc2
      else projectList proj (cmap.group g) acc2) acc) =
      (fun l => projectList proj
        (cmap.group ConstraintGroup.CONTACT ++ cmap.group ConstraintGroup.STANDARD ++
          cmap.group ConstraintGroup.SHAPE) l) := by
    funext l
    have h4 : List.range 4 = [0, 1, 2, 3] := rfl
    rw [h4]
    simp [groupOfNat, projectList, List.foldl_append]
  rw [hfun]

/-- C6: after the solver passes, `tick(dt)` sets every particle's velocity to
`(ep − p)/dt` and then calls `confirmGuess()`; the recovered particle list is
computed from the output of the main solver pass (itself fed by the
stabilization pass and the force phase) and the per-tick map teardown touches
no particle, so velocity recovery runs after all constraint projection and
before teardown.  The precondition `dt > 0` keeps the division meaningful. -/
theorem claim6_velocity_recovery (cfg : Config)
    (proj : Constraint → List Particle → List Particle)
    (batch : List Constraint → List Particle → List Particle)
    (sFn : Particle → ℚ) (dt : ℚ) (s s' : SimState) (cmap : CMap)
    (hdt : 0 < dt)
    (hc : tickCMap cfg sFn dt s = Except.ok cmap)
    (ht : tick cfg proj batch sFn dt s = Except.ok s') :
    s'.particles = velocityRecovery cfg dt (solverPass cfg proj batch cmap
      (stabilizationPass cfg proj batch cmap.stabilization
        (forcesPhase cfg s.gravity dt sFn s.particles))) ∧
    velocityRecovery cfg dt (solverPass cfg proj batch cmap
      (stabilizationPass cfg proj batch cmap.stabilization
        (forcesPhase cfg s.gravity dt sFn s.particles))) =
      (solverPass cfg proj batch cmap
        (stabilizationPass cfg proj batch cmap.stabilization
          (forcesPhase cfg s.gravity dt sFn s.particles))).map (fun part =>
        Particle.confirmGuess cfg { part with v := (1 / dt) • (part.ep - part.p) }) := by
  constructor
  · unfold tick at ht
    rw [hc] at ht
    simp only [Except.map] at ht
    injection ht with h
    rw [h.symm]
  · rfl

/-- C2: for every particle with `imass = 0`, a successful `tick(dt)` with
`dt > 0` leaves its position unchanged and its velocity equal to zero, in
every simulation state, provided the constraint projections satisfy the
contract of §4.2 (an immovable particle receives no displacement). -/
theorem claim2_immovable_fixed (cfg : Config)
    (proj : Constraint → List Particle → List Particle)
    (batch : List Constraint → List Particle → List Particle)
    (sFn : Particle → ℚ) (dt : ℚ) (s s' : SimState) (i : Nat)
    (hp : ∀ c, PreservesImmovable (proj c))
    (hb : ∀ cs, PreservesImmovable (batch cs))
    (hdt : 0 < dt)
    (ht : tick cfg proj batch sFn dt s = Except.ok s')
    (hi : i < s.particles.length)
    (h0 : (s.particles.getD i default).imass = 0) :
    (s'.particles.getD i default).p = (s.particles.getD i default).p ∧
    (s'.particles.getD i default).v = 0 := by
  unfold tick at ht
  cases hc : tickCMap cfg sFn dt s with
  | error e =>
    rw [hc] at ht
    simp [Except.map] at ht
  | ok cmap =>
    rw [hc] at ht
    simp only [Except.map] at ht
    injection ht with ht
    have hps : s'.particles = velocityRecovery cfg dt
        (solverPass cfg proj batch cmap
          (stabilizationPass cfg proj batch cmap.stabilization
            (forcesPhase cfg s.gravity dt sFn s.particles))) := by
      rw [ht.symm]
    -- facts about the force phase at index i
    have hL1 : (forcesPhase cfg s.gravity dt sFn s.particles).length =
        s.particles.length := by
      simp [forcesPhase]
    have hq1 : (forcesPhase cfg s.gravity dt sFn s.particles).getD i default =
        Particle.scaleMass sFn
          { applyForces cfg s.gravity dt (s.particles.getD i default) with
            ep := (applyForces cfg s.gravity dt (s.particles.getD i default)).guess dt } := by
      unfold forcesPhase
      exact getD_map s.particles _ i hi default default
    have hq1p : ((forcesPhase cfg s.gravity dt sFn s.particles).getD i default).p =
        (s.particles.getD i default).p := by
      rw [hq1]; rfl
    have hq1m : ((forcesPhase cfg s.gravity dt sFn s.particles).getD i default).imass = 0 := by
      rw [hq1]; exact h0
    -- the solver phases do not touch particle i
    have hpres : PreservesImmovable (fun ps => solverPass cfg proj batch cmap
        (stabilizationPass cfg proj batch cmap.stabilization ps)) :=
      preservesImmovable_comp
        (preservesImmovable_stab cfg proj batch cmap.stabilization hp hb)
        (preservesImmovable_solver cfg proj batch cmap hp hb)
    obtain ⟨hl3, hfix3⟩ := hpres (forcesPhase cfg s.gravity dt sFn s.particles)
    have hq3 : (solverPass cfg proj batch cmap
        (stabilizationPass cfg proj batch cmap.stabilization
          (forcesPhase cfg s.gravity dt sFn s.particles))).getD i default =
        (forcesPhase cfg s.gravity dt sFn s.particles).getD i default :=
      hfix3 i (by rw [hL1]; exact hi) hq1m
    -- velocity recovery at index i
    have hiL : i < (solverPass cfg proj batch cmap
        (stabilizationPass cfg proj batch cmap.stabilization
          (forcesPhase cfg s.gravity dt sFn s.particles))).length := by
      rw [hl3, hL1]; exact hi
    have hfinal : (s'.particles).getD i default =
        Particle.confirmGuess cfg
          { (solverPass cfg proj batch cmap
              (stabilizationPass cfg proj batch cmap.stabilization
                (forcesPhase cfg s.gravity dt sFn s.particles))).getD i default with
            v := (1 / dt) • (((solverPass cfg proj batch cmap
              (stabilizationPass cfg proj batch cmap.stabilization
                (forcesPhase cfg s.gravity dt sFn s.particles))).getD i default).ep -
              ((solverPass cfg proj batch cmap
                (stabilizationPass cfg proj batch cmap.stabilization
                  (forcesPhase cfg s.gravity dt sFn s.particles))).getD i default).p) } := by
      rw [hps]
      unfold velocityRecovery
      exact getD_map _ _ i hiL default default
    rw [hfinal, hq3]
    unfold Particle.confirmGuess
    split
    · exact ⟨hq1p, rfl⟩
    · next hcond => exact absurd hq1m hcond

/-- C9: at the end of a successful tick, every CONTACT and every
STABILIZATION constraint of the per-tick map is removed and destroyed, and in
every reachable state (where the persistent store keeps nothing in the
ephemeral groups) these are exactly the constraints created by contact
discovery during that tick; the SHAPE and STANDARD lists of the map are left
untouched by teardown, and the persistent constraint store and the bodies
(owners of the shape constraints) survive the tick unchanged. -/
theorem claim9_teardown (cfg : Config)
    (proj : Constraint → List Particle → List Particle)
    (batch : List Constraint → List Particle → List Particle)
    (sFn : Particle → ℚ) (dt : ℚ) (s s' : SimState) (cmap : CMap)
    (hg1 : s.globals.contact = []) (hg2 : s.globals.stabilization = [])
    (hc : tickCMap cfg sFn dt s = Except.ok cmap)
    (ht : tick cfg proj batch sFn dt s = Except.ok s') :
    (teardown cmap).1.contact = [] ∧
    (teardown cmap).1.stabilization = [] ∧
    (teardown cmap).1.shape = cmap.shape ∧
    (teardown cmap).1.standard = cmap.standard ∧
    (∀ c : Constraint, c ∈ (teardown cmap).2 ↔ c ∈ cmap.contact ∨ c ∈ cmap.stabilization) ∧
    cmap.contact = ((discoverContacts cfg s.xB s.yB
        (forcesPhase cfg s.gravity dt sFn s.particles)).filter
        (fun gc => gc.1 = ConstraintGroup.CONTACT)).map (fun gc => gc.2) ∧
    cmap.stabilization = ((discoverContacts cfg s.xB s.yB
        (forcesPhase cfg s.gravity dt sFn s.particles)).filter
        (fun gc => gc.1 = ConstraintGroup.STABILIZATION)).map (fun gc => gc.2) ∧
    s'.globals = s.globals ∧ s'.bodies = s.bodies := by
  have hsg : s'.globals = s.globals ∧ s'.bodies = s.bodies := by
    unfold tick at ht
    rw [hc] at ht
    simp only [Except.map] at ht
    injection ht with ht
    rw [ht.symm]
    exact ⟨rfl, rfl⟩
  unfold tickCMap at hc
  unfold gatherConstraints at hc
  cases hgs : gatherShapes s.bodies with
  | error e => rw [hgs] at hc; simp [Except.map] at hc
  | ok shapes =>
    rw [hgs] at hc
    simp only [Except.map] at hc
    injection hc with hc
    have hcon : cmap.contact = ((discoverContacts cfg s.xB s.yB
        (forcesPhase cfg s.gravity dt sFn s.particles)).filter
        (fun gc => gc.1 = ConstraintGroup.CONTACT)).map (fun gc => gc.2) := by
      rw [hc.symm]
      have := addDiscovered_group
        (discoverContacts cfg s.xB s.yB (forcesPhase cfg s.gravity dt sFn s.particles))
        ⟨s.globals.contact, s.globals.standard, shapes ++ s.globals.shape,
          s.globals.stabilization⟩ ConstraintGroup.CONTACT
      simpa [CMap.group, hg1] using this
    have hstab : cmap.stabilization = ((discoverContacts cfg s.xB s.yB
        (forcesPhase cfg s.gravity dt sFn s.particles)).filter
        (fun gc => gc.1 = ConstraintGroup.STABILIZATION)).map (fun gc => gc.2) := by
      rw [hc.symm]
      have := addDiscovered_group
        (discoverContacts cfg s.xB s.yB (forcesPhase cfg s.gravity dt sFn s.particles))
        ⟨s.globals.contact, s.globals.standard, shapes ++ s.globals.shape,
          s.globals.stabilization⟩ ConstraintGroup.STABILIZATION
      simpa [CMap.group, hg2] using this
    refine ⟨?_, ?_, ?_, ?_, ?_, hcon, hstab, hsg.1, hsg.2⟩
    · rw [teardown_eq]
    · rw [teardown_eq]
    · rw [teardown_eq]
    · rw [teardown_eq]
    · intro c
      rw [teardown_eq]
      simp [List.mem_append, List.mem_reverse]

theorem pairConstraints_snd (cfg : Config) (pI pJ : Particle) (i j : Nat)
    (gc : ConstraintGroup × Constraint) (h : gc ∈ pairConstraints cfg pI pJ i j) :
    gc.2 = Constraint.RigidContact i j ∨ gc.2 = Constraint.Contact i j := by
  unfold pairConstraints at h
  split_ifs at h <;> simp at h <;>
    first
    | (rcases h with h | h <;> rw [h])
    | rw [h]
  all_goals simp

theorem pairConstraints_solid (cfg : Config) (pI pJ : Particle) (i j : Nat)
    (gc : ConstraintGroup × Constraint) (h : gc ∈ pairConstraints cfg pI pJ i j) :
    pI.ph = Phase.SOLID ∨ pJ.ph = Phase.SOLID := by
  unfold pairConstraints at h
  split_ifs at h <;> (try simp at h) <;> tauto

theorem boundaryFor_not_pairC (cfg : Config) (xB yB : ℚ × ℚ) (part : Particle) (i : Nat)
    (gc : ConstraintGroup × Constraint) (h : gc ∈ boundaryFor cfg xB yB part i) (a b : Nat) :
    gc.2 ≠ Constraint.RigidContact a b ∧ gc.2 ≠ Constraint.Contact a b := by
  unfold boundaryFor at h
  rcases List.mem_append.1 h with h | h <;>
    split_ifs at h <;> simp at h <;>
    first
    | (rcases h with h | h <;> rw [h] <;> simp)
    | (rw [h]; simp)

theorem mem_discover_pair (cfg : Config) (xB yB : ℚ × ℚ) (ps : List Particle)
    (a b : Nat) (g : ConstraintGroup) (k : Constraint)
    (hk : k = Constraint.RigidContact a b ∨ k = Constraint.Contact a b) :
    (g, k) ∈ discoverContacts cfg xB yB ps ↔
      a < b ∧ b < ps.length ∧
        (g, k) ∈ pairConstraints cfg (ps.getD a default) (ps.getD b default) a b := by
  unfold discoverContacts
  rw [List.mem_flatMap]
  constructor
  · rintro ⟨i, hi, hmem⟩
    rw [List.mem_range] at hi
    rcases List.mem_append.1 hmem with hm | hm
    · rw [List.mem_flatMap] at hm
      rcases hm with ⟨j2, hj2, hm2⟩
      rw [List.mem_range'_1] at hj2
      have hsnd := pairConstraints_snd cfg _ _ i j2 _ hm2
      obtain ⟨e1, e2⟩ : i = a ∧ j2 = b := by
        rcases hk with hk | hk <;> rcases hsnd with hs | hs <;> rw [hk] at hs <;>
          cases hs <;> exact ⟨rfl, rfl⟩
      subst e1
      subst e2
      exact ⟨by omega, by omega, hm2⟩
    · have := boundaryFor_not_pairC cfg xB yB _ i _ hm a b
      rcases hk with hk | hk <;> rw [hk] at this
      · exact absurd rfl this.1
      · exact absurd rfl this.2
  · rintro ⟨hab, hb, hmem⟩
    refine ⟨a, List.mem_range.2 (by omega), List.mem_append.2 (Or.inl ?_)⟩
    rw [List.mem_flatMap]
    exact ⟨b, List.mem_range'_1.2 ⟨by omega, by omega⟩, hmem⟩

theorem mem_pairConstraints_rigidC (cfg : Config) (pI pJ : Particle) (i j : Nat) :
    (ConstraintGroup.CONTACT, Constraint.RigidContact i j) ∈ pairConstraints cfg pI pJ i j ↔
      ¬(pI.imass = 0 ∧ pJ.imass = 0) ∧
      ¬(pI.ph = Phase.SOLID ∧ pJ.ph = Phase.SOLID ∧ pI.bod = pJ.bod ∧ pI.bod ≠ -1) ∧
      overlap cfg pI.ep pJ.ep ∧ pI.ph = Phase.SOLID ∧ pJ.ph = Phase.SOLID := by
  unfold pairConstraints
  split_ifs with h1 h2 h3 h4 h5 <;> simp_all
  intro hb
  exact absurd (h2.2.2.1.trans hb) h2.2.2.2

theorem mem_pairConstraints_rigidS (cfg : Config) (pI pJ : Particle) (i j : Nat) :
    (ConstraintGroup.STABILIZATION, Constraint.RigidContact i j) ∈
        pairConstraints cfg pI pJ i j ↔
      cfg.useStabilization = true ∧
      ¬(pI.imass = 0 ∧ pJ.imass = 0) ∧
      ¬(pI.ph = Phase.SOLID ∧ pJ.ph = Phase.SOLID ∧ pI.bod = pJ.bod ∧ pI.bod ≠ -1) ∧
      overlap cfg pI.ep pJ.ep ∧ pI.ph = Phase.SOLID ∧ pJ.ph = Phase.SOLID := by
  unfold pairConstraints
  split_ifs with h1 h2 h3 h4 h5 <;> simp_all
  intro _ hb
  exact absurd (h2.2.2.1.trans hb) h2.2.2.2

theorem mem_pairConstraints_contact (cfg : Config) (pI pJ : Particle) (i j : Nat) :
    (ConstraintGroup.CONTACT, Constraint.Contact i j) ∈ pairConstraints cfg pI pJ i j ↔
      ¬(pI.imass = 0 ∧ pJ.imass = 0) ∧
      ¬(pI.ph = Phase.SOLID ∧ pJ.ph = Phase.SOLID ∧ pI.bod = pJ.bod ∧ pI.bod ≠ -1) ∧
      overlap cfg pI.ep pJ.ep ∧
      (pI.ph = Phase.SOLID ∨ pJ.ph = Phase.SOLID) ∧
      ¬(pI.ph = Phase.SOLID ∧ pJ.ph = Phase.SOLID) := by
  unfold pairConstraints
  split_ifs with h1 h2 h3 h4 h5 <;> simp_all

/-- C1: during contact discovery in `tick(dt)`, for every particle pair
`(i, j)` with `i < j`: a `RigidContactConstraint(i, j)` is appended to CONTACT
exactly when the pair is not skipped (both immovable, or both SOLID in the
same body `bod ≠ −1`), the predicted positions overlap within
`PARTICLE_DIAM − EPSILON`, and both particles are SOLID; a second one goes to
STABILIZATION exactly when additionally stabilization is enabled; a
`ContactConstraint(i, j)` is appended to CONTACT exactly when the pair is not
skipped, overlaps, and exactly one of the two is SOLID; and no constraint for
the pair is appended to any group unless at least one of the two is SOLID. -/
theorem claim1_contact_discovery (cfg : Config) (xB yB : ℚ × ℚ) (ps : List Particle)
    (i j : Nat) (hij : i < j) (hj : j < ps.length) :
    (((ConstraintGroup.CONTACT, Constraint.RigidContact i j) ∈
        discoverContacts cfg xB yB ps) ↔
      (¬((ps.getD i default).imass = 0 ∧ (ps.getD j default).imass = 0) ∧
       ¬((ps.getD i default).ph = Phase.SOLID ∧ (ps.getD j default).ph = Phase.SOLID ∧
         (ps.getD i default).bod = (ps.getD j default).bod ∧
         (ps.getD i default).bod ≠ -1) ∧
       overlap cfg (ps.getD i default).ep (ps.getD j default).ep ∧
       (ps.getD i default).ph = Phase.SOLID ∧ (ps.getD j default).ph = Phase.SOLID)) ∧
    (((ConstraintGroup.STABILIZATION, Constraint.RigidContact i j) ∈
        discoverContacts cfg xB yB ps) ↔
      (cfg.useStabilization = true ∧
       ¬((ps.getD i default).imass = 0 ∧ (ps.getD j default).imass = 0) ∧
       ¬((ps.getD i default).ph = Phase.SOLID ∧ (ps.getD j default).ph = Phase.SOLID ∧
         (ps.getD i default).bod = (ps.getD j default).bod ∧
         (ps.getD i default).bod ≠ -1) ∧
       overlap cfg (ps.getD i default).ep (ps.getD j default).ep ∧
       (ps.getD i default).ph = Phase.SOLID ∧ (ps.getD j default).ph = Phase.SOLID)) ∧
    (((ConstraintGroup.CONTACT, Constraint.Contact i j) ∈
        discoverContacts cfg xB yB ps) ↔
      (¬((ps.getD i default).imass = 0 ∧ (ps.getD j default).imass = 0) ∧
       ¬((ps.getD i default).ph = Phase.SOLID ∧ (ps.getD j default).ph = Phase.SOLID ∧
         (ps.getD i default).bod = (ps.getD j default).bod ∧
         (ps.getD i default).bod ≠ -1) ∧
       overlap cfg (ps.getD i default).ep (ps.getD j default).ep ∧
       ((ps.getD i default).ph = Phase.SOLID ∨ (ps.getD j default).ph = Phase.SOLID) ∧
       ¬((ps.getD i default).ph = Phase.SOLID ∧ (ps.getD j default).ph = Phase.SOLID))) ∧
    (∀ g : ConstraintGroup,
      ((g, Constraint.RigidContact i j) ∈ discoverContacts cfg xB yB ps ∨
       (g, Constraint.Contact i j) ∈ discoverContacts cfg xB yB ps) →
      ((ps.getD i default).ph = Phase.SOLID ∨ (ps.getD j default).ph = Phase.SOLID)) := by
  refine ⟨?_, ?_, ?_, ?_⟩
  · rw [mem_discover_pair cfg xB yB ps i j _ _ (Or.inl rfl), mem_pairConstraints_rigidC]
    simp [hij, hj]
  · rw [mem_discover_pair cfg xB yB ps i j _ _ (Or.inl rfl), mem_pairConstraints_rigidS]
    simp [hij, hj]
  · rw [mem_discover_pair cfg xB yB ps i j _ _ (Or.inr rfl), mem_pairConstraints_contact]
    simp [hij, hj]
  · intro g hg
    rcases hg with hg | hg
    · rw [mem_discover_pair cfg xB yB ps i j _ _ (Or.inl rfl)] at hg
      exact pairConstraints_solid cfg _ _ i j _ hg.2.2
    · rw [mem_discover_pair cfg xB yB ps i j _ _ (Or.inr rfl)] at hg
      exact pairConstraints_solid cfg _ _ i j _ hg.2.2

theorem find?_unique {α : Type} (p : α → Bool) (a : α) : ∀ (l : List α),
    (∀ x ∈ l, p x = true → x = a) → a ∈ l → p a = true → l.find? p = some a
  | [], _, ha, _ => absurd ha (List.not_mem_nil a)
  | x :: t, huniq, ha, hpa => by
    cases hx : p x with
    | true =>
      rw [List.find?_cons_of_pos _ hx]
      exact congrArg some (huniq x (List.mem_cons_self x t) hx)
    | false =>
      rw [List.find?_cons_of_neg _ (by simp [hx])]
      rcases List.mem_cons.1 ha with h | h2
      · rw [h.symm, hpa] at hx
        cases hx
      · exact find?_unique p a t
          (fun y hy hpy => huniq y (List.mem_cons_of_mem x hy) hpy) h2 hpa

theorem natSqrtExact_mul_self (a : Nat) : natSqrtExact (a * a) = some a := by
  unfold natSqrtExact
  apply find?_unique
  · intro x _ hpx
    have hxx : x * x = a * a := by simpa using hpx
    exact Nat.mul_self_inj.1 hxx
  · refine List.mem_range.2 (Nat.lt_succ_of_le ?_)
    nlinarith
  · simp

theorem ratSqrt_complete (q n : ℚ) (hn : 0 ≤ n) (hq : n * n = q) : ratSqrt q = some n := by
  subst hq
  unfold ratSqrt
  have hnn : 0 ≤ n.num := Rat.num_nonneg.2 hn
  have h1 : ¬(n * n < 0) := not_lt.2 (mul_self_nonneg n)
  rw [if_neg h1]
  obtain ⟨a, ha⟩ : ∃ a : ℕ, n.num = (a : ℤ) := ⟨n.num.toNat, (Int.toNat_of_nonneg hnn).symm⟩
  have h2 : (n * n).num.toNat = a * a := by
    rw [Rat.mul_self_num n, ha, ← Nat.cast_mul]
    rfl
  have h3 : (n * n).den = n.den * n.den := Rat.mul_self_den n
  rw [h2, h3, natSqrtExact_mul_self, natSqrtExact_mul_self]
  have h4 : ((a : ℕ) : ℚ) = ((n.num : ℤ) : ℚ) := by rw [ha]; push_cast; rfl
  show some ((a : ℚ) / (n.den : ℚ)) = some n
  rw [h4, Rat.num_div_den n]

theorem vec2_ext (a b : Vec2) (hx : a.x = b.x) (hy : a.y = b.y) : a = b := by
  cases a
  cases b
  cases hx
  cases hy
  rfl

@[simp] theorem vec2_add_x (a b : Vec2) : (a + b).x = a.x + b.x := rfl

@[simp] theorem vec2_add_y (a b : Vec2) : (a + b).y = a.y + b.y := rfl

@[simp] theorem vec2_sub_x (a b : Vec2) : (a - b).x = a.x - b.x := rfl

@[simp] theorem vec2_sub_y (a b : Vec2) : (a - b).y = a.y - b.y := rfl

@[simp] theorem vec2_smul_x (q : ℚ) (v : Vec2) : (q • v).x = q * v.x := rfl

@[simp] theorem vec2_smul_y (q : ℚ) (v : Vec2) : (q • v).y = q * v.y := rfl

@[simp] theorem vec2_zero_x : (0 : Vec2).x = 0 := rfl

@[simp] theorem vec2_zero_y : (0 : Vec2).y = 0 := rfl

theorem normalizeQ_of_sq (u : Vec2) (n : ℚ) (hn : 0 < n) (hd : n * n = dist2 u 0) :
    normalizeQ u = some ((1 / n) • u) := by
  unfold normalizeQ
  rw [ratSqrt_complete (dist2 u 0) n (le_of_lt hn) hd]
  show (if n = 0 then none else some ((1 / n) • u)) = some ((1 / n) • u)
  rw [if_neg (ne_of_gt hn)]

/-- C3 counterexample: with the mouse point at the origin and a single
particle at (1, 0) with zero velocity, `mousePressed` leaves the particle
with velocity (−7, 0) — an impulse of magnitude 7 directed from the particle
TOWARD the point — whereas the claim predicts the radially outward impulse
`7 · normalize(particle − point)`, which at this input is (7, 0). -/
theorem claim3_counterexample :
    ((mousePressed ⟨0, 0⟩ sMouse).particles.getD 0 default).v = ⟨-7, 0⟩ ∧
    ((mousePressed ⟨0, 0⟩ sMouse).particles.getD 0 default).v ≠
      (7 : ℚ) • ((sMouse.particles.getD 0 default).p - ⟨0, 0⟩) := by
  with_unfolding_all decide

/-- C3 (amended): `mousePressed(p)` applies an impulse radially INWARD: every
particle whose distance to `p` is an exactly representable value `n > 0`
receives a velocity increment `(7/n)·(p − particle.p)`, a vector of fixed
magnitude 7 (second conjunct: its squared norm is 49) directed from the
particle's current position toward `p`. -/
theorem claim3_amended_mouse_impulse (s : SimState) (pt : Vec2) (i : Nat) (n : ℚ)
    (hi : i < s.particles.length) (hn : 0 < n)
    (hd : n * n = dist2 pt (s.particles.getD i default).p) :
    (mousePressed pt s).particles.getD i default =
      { s.particles.getD i default with
        v := (s.particles.getD i default).v +
          (7 / n) • (pt - (s.particles.getD i default).p) } ∧
    dist2 ((7 / n) • (pt - (s.particles.getD i default).p)) 0 = 49 := by
  have hne : n ≠ 0 := ne_of_gt hn
  have hd0 : n * n = dist2 (pt - (s.particles.getD i default).p) 0 := by
    rw [hd]
    simp [dist2]
  constructor
  · have h7 : (7 : ℚ) • ((1 / n) • (pt - (s.particles.getD i default).p)) =
        (7 / n) • (pt - (s.particles.getD i default).p) := by
      apply vec2_ext <;> simp <;> ring
    unfold mousePressed
    rw [getD_map s.particles _ i hi default default,
      normalizeQ_of_sq (pt - (s.particles.getD i default).p) n hn hd0]
    show { s.particles.getD i default with
        v := (s.particles.getD i default).v +
          (7 : ℚ) • ((1 / n) • (pt - (s.particles.getD i default).p)) } =
      { s.particles.getD i default with
        v := (s.particles.getD i default).v +
          (7 / n) • (pt - (s.particles.getD i default).p) }
    rw [h7]
  · have hexp : dist2 ((7 / n) • (pt - (s.particles.getD i default).p)) 0 =
        (7 / n) ^ 2 * dist2 (pt - (s.particles.getD i default).p) 0 := by
      simp [dist2]
      ring
    rw [hexp, ← hd0]
    field_simp
    ring

/-! ## Witnesses: the hypothesis-bearing claim theorems applied at concrete
inputs -/

set_option maxRecDepth 4000

/-- Witness for C1 at the scene with two overlapping unit-mass solids: the
rigid contact for the pair (0, 1) is discovered. -/
theorem claim1_witness :
    (ConstraintGroup.CONTACT, Constraint.RigidContact 0 1) ∈
      discoverContacts cfg0 (-100, 100) (-100, 100) [solidA, solidB] :=
  ((claim1_contact_discovery cfg0 (-100, 100) (-100, 100) [solidA, solidB] 0 1
    (by decide) (by decide)).1).mpr (by with_unfolding_all decide)

/-- Witness for C2 at the one-immovable-particle scene with identity
projections: the position survives the tick and the velocity is zero. -/
theorem claim2_witness :
    (sImmTick.particles.getD 0 default).p = (sImm.particles.getD 0 default).p ∧
    (sImmTick.particles.getD 0 default).v = 0 :=
  claim2_immovable_fixed cfg0 (fun _ ps => ps) (fun _ ps => ps) (fun _ => 1) (1 / 60)
    sImm sImmTick 0
    (fun _ => preservesImmovable_id) (fun _ => preservesImmovable_id)
    (by norm_num) (by with_unfolding_all rfl) (by decide)
    (by with_unfolding_all rfl)

/-- Witness for the amended C3 at the mouse scene: the particle at (1, 0)
receives the inward impulse (−7, 0) of squared magnitude 49. -/
theorem claim3_witness :
    (mousePressed ⟨0, 0⟩ sMouse).particles.getD 0 default =
      { sMouse.particles.getD 0 default with
        v := (sMouse.particles.getD 0 default).v +
          ((7 : ℚ) / 1) • ((⟨0, 0⟩ : Vec2) - (sMouse.particles.getD 0 default).p) } ∧
    dist2 (((7 : ℚ) / 1) • ((⟨0, 0⟩ : Vec2) - (sMouse.particles.getD 0 default).p)) 0 = 49 :=
  claim3_amended_mouse_impulse sMouse ⟨0, 0⟩ 0 1 (by decide) (by norm_num)
    (by with_unfolding_all rfl)

/-- Witness for C5 with an observable projection and a populated map. -/
theorem claim5_witness :
    solverPass cfg0 projBump (fun _ ps => ps) cmapW [solidA] =
      (fun l => projectList projBump
        (cmapW.group ConstraintGroup.CONTACT ++ cmapW.group ConstraintGroup.STANDARD ++
          cmapW.group ConstraintGroup.SHAPE) l)^[cfg0.SOLVER_ITERATIONS] [solidA] :=
  claim5_solver_order cfg0 projBump (fun _ ps => ps) cmapW [solidA] rfl

/-- Witness for C6 at the two-solid scene with identity projections. -/
theorem claim6_witness :
    sPairTick.particles = velocityRecovery cfg0 (1 / 60)
      (solverPass cfg0 (fun _ ps => ps) (fun _ ps => ps) cmapPair
        (stabilizationPass cfg0 (fun _ ps => ps) (fun _ ps => ps) cmapPair.stabilization
          (forcesPhase cfg0 sPair.gravity (1 / 60) (fun _ => 1) sPair.particles))) ∧
    velocityRecovery cfg0 (1 / 60)
      (solverPass cfg0 (fun _ ps => ps) (fun _ ps => ps) cmapPair
        (stabilizationPass cfg0 (fun _ ps => ps) (fun _ ps => ps) cmapPair.stabilization
          (forcesPhase cfg0 sPair.gravity (1 / 60) (fun _ => 1) sPair.particles))) =
      (solverPass cfg0 (fun _ ps => ps) (fun _ ps => ps) cmapPair
        (stabilizationPass cfg0 (fun _ ps => ps) (fun _ ps => ps) cmapPair.stabilization
          (forcesPhase cfg0 sPair.gravity (1 / 60) (fun _ => 1) sPair.particles))).map
        (fun part =>
          Particle.confirmGuess cfg0
            { part with v := ((1 : ℚ) / (1 / 60)) • (part.ep - part.p) }) :=
  claim6_velocity_recovery cfg0 (fun _ ps => ps) (fun _ ps => ps) (fun _ => 1) (1 / 60)
    sPair sPairTick cmapPair
    (by norm_num) (by with_unfolding_all rfl) (by with_unfolding_all rfl)

/-- Witness for C9 at the two-solid scene: the two ephemeral rigid contacts
are drained and destroyed, the persistent store survives. -/
theorem claim9_witness :
    (teardown cmapPair).1.contact = [] ∧
    (teardown cmapPair).1.stabilization = [] ∧
    (teardown cmapPair).1.shape = cmapPair.shape ∧
    (teardown cmapPair).1.standard = cmapPair.standard ∧
    (∀ c : Constraint, c ∈ (teardown cmapPair).2 ↔
      c ∈ cmapPair.contact ∨ c ∈ cmapPair.stabilization) ∧
    cmapPair.contact = ((discoverContacts cfg0 sPair.xB sPair.yB
        (forcesPhase cfg0 sPair.gravity (1 / 60) (fun _ => 1) sPair.particles)).filter
        (fun gc => gc.1 = ConstraintGroup.CONTACT)).map (fun gc => gc.2) ∧
    cmapPair.stabilization = ((discoverContacts cfg0 sPair.xB sPair.yB
        (forcesPhase cfg0 sPair.gravity (1 / 60) (fun _ => 1) sPair.particles)).filter
        (fun gc => gc.1 = ConstraintGroup.STABILIZATION)).map (fun gc => gc.2) ∧
    sPairTick.globals = sPair.globals ∧ sPairTick.bodies = sPair.bodies :=
  claim9_teardown cfg0 (fun _ ps => ps) (fun _ ps => ps) (fun _ => 1) (1 / 60)
    sPair sPairTick cmapPair rfl rfl
    (by with_unfolding_all rfl) (by with_unfolding_all rfl)

end ParticleSolver
